import Mathlib

/-!
Verification of `transfer_to_album.py` (vk_playlist_transfer).

The script enumerates a user's audio tracks, and — when at least
`MIN_TRACKS` were enumerated — reverses the list, formats each
`(owner_id, track_id)` pair into a composite id `"{owner_id}_{track_id}"`,
creates a playlist and uploads the ids in batches of `BATCH_SIZE`,
opening a further playlist for every `PLAYLIST_MAX` ids.

The shallow embedding below models the script from the track-list
acquisition onward.  External collaborators (the playlist HTTP API and the
track enumerator) are represented by oracles inside `Env`: the outcome of
the n-th `create_playlist` call, the success of the n-th
`add_to_playlist` call, and the enumeration result.  `mainRun` mirrors
`main` (from the playlist-title prompt at line 203 to the end); the
credential prompts before the title prompt only add further early-return
paths that make no API calls and are elided.
-/

namespace VkTransfer

/-- Constant `BATCH_SIZE = 50` (transfer_to_album.py line 24). -/
def BATCH_SIZE : Nat := 50

/-- Constant `PLAYLIST_MAX = 1000` (line 25). -/
def PLAYLIST_MAX : Nat := 1000

/-- Constant `MIN_TRACKS = 500` (line 27). -/
def MIN_TRACKS : Nat := 500

/-- Python `range(start, stop, step)` for a positive `step`. -/
def pyRange (start stop step : Nat) : List Nat :=
  (List.range ((stop - start + step - 1) / step)).map fun k => start + k * step

/-- Python slice `l[i : i + n]` (for `i`, `n` within bounds it is
`(l.drop i).take n`; Python clamps out-of-range indices the same way). -/
def pySlice (l : List α) (i n : Nat) : List α :=
  (l.drop i).take n

/-- Python `str.strip()` with no argument: remove leading and trailing
whitespace. -/
def pyStrip (s : String) : String :=
  ⟨((s.data.dropWhile Char.isWhitespace).reverse.dropWhile Char.isWhitespace).reverse⟩

theorem pyRange_eq_nil {a b s : Nat} (h : b ≤ a) : pyRange a b s = [] := by
  unfold pyRange
  have hba : b - a = 0 := Nat.sub_eq_zero_of_le h
  rcases Nat.eq_zero_or_pos s with hs | hs
  · simp [hba, hs]
  · have : (b - a + s - 1) / s = 0 := by
      apply Nat.div_eq_of_lt
      omega
    simp [this]

theorem pyRange_shift (a b s : Nat) :
    pyRange a b s = (pyRange 0 (b - a) s).map (fun x => a + x) := by
  unfold pyRange
  rw [List.map_map]
  simp [Function.comp]

theorem pyRange_cons {a b s : Nat} (hs : 0 < s) (h : a < b) :
    pyRange a b s = a :: pyRange (a + s) b s := by
  unfold pyRange
  have hcount : (b - a + s - 1) / s = (b - (a + s) + s - 1) / s + 1 := by
    rcases le_or_lt s (b - a) with hd | hd
    · have h1 : b - a + s - 1 = (b - (a + s) + s - 1) + s := by omega
      rw [h1, Nat.add_div_right _ hs]
    · have h1 : b - (a + s) = 0 := by omega
      have h2 : (b - a + s - 1) / s = 1 := by
        have hlo : s ≤ b - a + s - 1 := by omega
        have hhi : b - a + s - 1 < 2 * s := by omega
        have hlt : (b - a + s - 1) / s < 2 := (Nat.div_lt_iff_lt_mul hs).mpr hhi
        have hge : 1 ≤ (b - a + s - 1) / s := (Nat.one_le_div_iff hs).mpr hlo
        omega
      rw [h2, h1]
      simp [Nat.div_eq_of_lt (by omega : s - 1 < s)]
  rw [hcount, List.range_succ_eq_map]
  simp only [List.map_cons, List.map_map]
  refine congrArg₂ _ (by simp) ?_
  apply List.map_congr_left
  intro k _
  simp only [Function.comp_apply, Nat.succ_mul]
  ring

/-- The partition of a list into consecutive chunks of `k` elements (the
last chunk may be shorter).  This is the specification-side view of the
slice loops in `main`; the lemmas below connect it to the index-based
slices the script computes. -/
def chunksOf (k : Nat) (l : List α) : List (List α) :=
  match l with
  | [] => []
  | x :: xs =>
    if k = 0 then [] else (x :: xs).take k :: chunksOf k ((x :: xs).drop k)
termination_by l.length
decreasing_by
  rename_i h
  simp only [List.length_drop, List.length_cons]
  omega

theorem chunksOf_nil (k : Nat) : chunksOf k ([] : List α) = [] := by
  rw [chunksOf]

theorem chunksOf_cons {k : Nat} (hk : k ≠ 0) {l : List α} (hl : l ≠ []) :
    chunksOf k l = l.take k :: chunksOf k (l.drop k) := by
  match l with
  | [] => exact absurd rfl hl
  | x :: xs =>
    rw [chunksOf]
    simp [hk]

theorem chunksOf_flatten (k : Nat) (hk : k ≠ 0) (l : List α) :
    (chunksOf k l).flatten = l := by
  suffices h : ∀ (n : Nat) (l : List α), l.length ≤ n → (chunksOf k l).flatten = l from
    h l.length l le_rfl
  intro n
  induction n with
  | zero =>
    intro l h
    have : l = [] := List.eq_nil_of_length_eq_zero (by omega)
    subst this
    simp [chunksOf_nil]
  | succ n ih =>
    intro l h
    by_cases hl : l = []
    · subst hl
      simp [chunksOf_nil]
    · rw [chunksOf_cons hk hl, List.flatten_cons]
      rw [ih (l.drop k) (by simp only [List.length_drop]; omega)]
      exact List.take_append_drop k l

theorem chunksOf_length (k : Nat) (hk : k ≠ 0) (l : List α) :
    (chunksOf k l).length = (l.length + k - 1) / k := by
  suffices h : ∀ (n : Nat) (l : List α), l.length ≤ n →
      (chunksOf k l).length = (l.length + k - 1) / k from h l.length l le_rfl
  intro n
  induction n with
  | zero =>
    intro l h
    have : l = [] := List.eq_nil_of_length_eq_zero (by omega)
    subst this
    rw [chunksOf_nil]
    simp only [List.length_nil]
    symm
    apply Nat.div_eq_of_lt
    omega
  | succ n ih =>
    intro l h
    by_cases hl : l = []
    · subst hl
      rw [chunksOf_nil]
      simp only [List.length_nil]
      symm
      apply Nat.div_eq_of_lt
      omega
    · have hpos : 0 < l.length := List.length_pos.mpr hl
      rw [chunksOf_cons hk hl, List.length_cons,
        ih (l.drop k) (by simp only [List.length_drop]; omega)]
      simp only [List.length_drop]
      rcases le_or_lt k l.length with hd | hd
      · have h1 : l.length - k + k - 1 = l.length - 1 := by omega
        have h2 : l.length + k - 1 = (l.length - 1) + k := by omega
        rw [h1, h2, Nat.add_div_right _ (Nat.pos_of_ne_zero hk)]
      · have h1 : l.length - k = 0 := by omega
        have h2 : l.length + k - 1 = (l.length - 1) + k := by omega
        rw [h1, h2, Nat.add_div_right _ (Nat.pos_of_ne_zero hk)]
        rw [Nat.div_eq_of_lt (by omega : 0 + k - 1 < k),
          Nat.div_eq_of_lt (by omega : l.length - 1 < k)]

theorem slices_eq_chunksOf (k : Nat) (hk : k ≠ 0) (l : List α) :
    (pyRange 0 l.length k).map (fun j => pySlice l j k) = chunksOf k l := by
  suffices h : ∀ (n : Nat) (l : List α), l.length ≤ n →
      (pyRange 0 l.length k).map (fun j => pySlice l j k) = chunksOf k l from
    h l.length l le_rfl
  intro n
  induction n with
  | zero =>
    intro l h
    have : l = [] := List.eq_nil_of_length_eq_zero (by omega)
    subst this
    simp only [List.length_nil]
    rw [pyRange_eq_nil (by omega), chunksOf_nil]
    rfl
  | succ n ih =>
    intro l h
    by_cases hl : l = []
    · subst hl
      simp only [List.length_nil]
      rw [pyRange_eq_nil (by omega), chunksOf_nil]
      rfl
    · have hpos : 0 < l.length := List.length_pos.mpr hl
      rw [chunksOf_cons hk hl]
      rw [pyRange_cons (Nat.pos_of_ne_zero hk) (by omega), pyRange_shift]
      simp only [List.map_cons, List.map_map, Nat.zero_add, Nat.sub_zero]
      refine congrArg₂ _ (by simp [pySlice]) ?_
      have hdrop : (l.drop k).length = l.length - k := by
        simp [List.length_drop]
      have := ih (l.drop k) (by simp only [List.length_drop]; omega)
      rw [hdrop] at this
      rw [← this]
      apply List.map_congr_left
      intro j _
      simp only [Function.comp_apply, pySlice, List.drop_drop]

theorem chunksOf_append_split (k c : Nat) (hk : k ≠ 0) :
    ∀ l : List α,
      chunksOf k (l.take (c * k)) ++ chunksOf k (l.drop (c * k)) = chunksOf k l := by
  induction c with
  | zero =>
    intro l
    simp [chunksOf_nil]
  | succ c ih =>
    intro l
    by_cases hl : l = []
    · subst hl
      simp [chunksOf_nil]
    · have hkpos : 0 < k := Nat.pos_of_ne_zero hk
      have htne : l.take ((c + 1) * k) ≠ [] := by
        rw [Ne, List.take_eq_nil_iff]
        push_neg
        constructor
        · positivity
        · exact hl
      rw [chunksOf_cons hk htne, chunksOf_cons hk hl]
      rw [List.take_take, min_eq_left (by nlinarith : k ≤ (c + 1) * k)]
      rw [List.drop_take]
      have h1 : (c + 1) * k - k = c * k := by
        rw [Nat.succ_mul]
        omega
      have h2 : l.drop ((c + 1) * k) = (l.drop k).drop (c * k) := by
        rw [List.drop_drop]
        congr 1
        rw [Nat.succ_mul]
        omega
      rw [h1, h2, List.cons_append, ih (l.drop k)]

theorem chunksOf_chunksOf_flatten (k c : Nat) (hk : k ≠ 0) (hc : c ≠ 0) (l : List α) :
    ((chunksOf (c * k) l).map (chunksOf k)).flatten = chunksOf k l := by
  suffices h : ∀ (n : Nat) (l : List α), l.length ≤ n →
      ((chunksOf (c * k) l).map (chunksOf k)).flatten = chunksOf k l from
    h l.length l le_rfl
  intro n
  induction n with
  | zero =>
    intro l h
    have : l = [] := List.eq_nil_of_length_eq_zero (by omega)
    subst this
    simp [chunksOf_nil]
  | succ n ih =>
    intro l h
    by_cases hl : l = []
    · subst hl
      simp [chunksOf_nil]
    · have hck : c * k ≠ 0 := by positivity
      have hckpos : 0 < c * k := Nat.pos_of_ne_zero hck
      have hpos : 0 < l.length := List.length_pos.mpr hl
      rw [chunksOf_cons hck hl]
      simp only [List.map_cons, List.flatten_cons]
      rw [ih (l.drop (c * k)) (by simp only [List.length_drop]; omega),
        chunksOf_append_split k c hk l]

/-- The `error` object of a VK API JSON response: `error_code` is read with
`data['error']['error_code']`, `error_msg` with `.get('error_msg', '')`
(lines 150-151, 169-170). -/
structure VkError where
  error_code : Int
  error_msg : Option String
deriving DecidableEq

/-- The `response` object returned by `audio.createPlaylist`; `main` reads
`resp.get("id") or resp.get("playlist_id")` from it (line 257). -/
structure RespObj where
  id : Option Nat
  playlist_id : Option Nat
deriving DecidableEq

/-- A parsed VK API JSON reply: either a `response` object or an
`error{error_code, error_msg}` object (lines 149, 168). -/
structure VkJson where
  error : Option VkError
  response : Option RespObj
deriving DecidableEq

/-- Python exceptions the two endpoint wrappers can raise:
`RuntimeError(msg)` from the explicit `raise`, or `KeyError` from
`data["response"]` when the key is absent. -/
inductive PyError where
  | runtimeError (msg : String)
  | keyError
deriving DecidableEq

/-- The message of the `RuntimeError` raised on an API error:
`f"Ошибка: [{data['error']['error_code']}] {data['error'].get('error_msg', '')}"`
(lines 151, 170). -/
def errText (e : VkError) : String :=
  "Ошибка: [" ++ toString e.error_code ++ "] " ++ e.error_msg.getD ""

/-- Endpoint wrapper `create_playlist` (lines 137-152), as a function of the parsed JSON
reply: raises on an `error` object, otherwise returns `data["response"]`. -/
def create_playlist (data : VkJson) : Except PyError RespObj :=
  match data.error with
  | some e => .error (.runtimeError (errText e))
  | none =>
    match data.response with
    | some r => .ok r
    | none => .error .keyError

/-- Endpoint wrapper `add_to_playlist` (lines 155-170), as a function of the parsed JSON
reply: raises on an `error` object, otherwise returns `None`. -/
def add_to_playlist (data : VkJson) : Except PyError Unit :=
  match data.error with
  | some e => .error (.runtimeError (errText e))
  | none => .ok ()

/-- Python `a or b` on the two optional ints read from the create response
(`resp.get("id") or resp.get("playlist_id")`, line 257): `None` and `0`
are falsy. -/
def pyOrOpt (a b : Option Nat) : Option Nat :=
  match a with
  | some n => if n = 0 then b else some n
  | none => b

/-- Python truthiness of the extracted playlist id (`if not playlist_id`,
lines 258, 291): `some n` with `n ≠ 0` is truthy. -/
def optTruthy (a : Option Nat) : Option Nat :=
  match a with
  | some n => if n = 0 then none else some n
  | none => none

/-- The playlist id `main` extracts from a create response, if truthy. -/
def extractPid (r : RespObj) : Option Nat :=
  optTruthy (pyOrOpt r.id r.playlist_id)

/-- Outcome of one `create_playlist` call, as seen by `main`: the call
either raises (API error reply) or returns a `response` object. -/
inductive CreateOutcome where
  | raiseErr (msg : String)
  | ok (resp : RespObj)
deriving DecidableEq

/-- Externally visible API calls made by one run of `main`, in order. -/
inductive Event where
  | enumerate
  | createCall (title : String) (out : CreateOutcome)
  | addCall (pid : Nat) (batch : List String) (ok : Bool)
deriving DecidableEq

def Event.isAdd : Event → Bool
  | .addCall _ _ _ => true
  | _ => false

def Event.isCreate : Event → Bool
  | .createCall _ _ => true
  | _ => false

/-- The batch of composite ids submitted by an add event. -/
def Event.addBatch : Event → Option (List String)
  | .addCall _ b _ => some b
  | _ => none

/-- A playlist the run created and obtained an id for, together with the
composite ids successfully added to it. -/
structure Playlist where
  title : String
  pid : Nat
  added : List String
deriving DecidableEq

/-- How a run of `main` terminates. -/
inductive Outcome where
  /-- Early `return` at line 205: empty playlist title. -/
  | emptyTitle
  /-- Early `return` at line 244: the enumeration raised. -/
  | enumFailed (msg : String)
  /-- Early `return` at line 249: fewer than `MIN_TRACKS` tracks. -/
  | tooFewTracks (n : Nat)
  /-- Early `return` at line 260: first create response had no usable id. -/
  | createNoId
  /-- the unprotected first `add_to_playlist` (line 262) raised; the
  exception propagates out of `main`. -/
  | uncaughtAdd
  /-- a `create_playlist` call in the overflow loop (line 289) raised; the
  exception propagates out of `main`. -/
  | uncaughtCreate (msg : String)
  /-- normal completion (line 310), with `total_added` and `num_playlists`. -/
  | done (totalAdded : Nat) (numPlaylists : Nat)
deriving DecidableEq

/-- The environment a run interacts with: the title typed at the prompt,
the enumeration result, and oracles giving the outcome of the n-th
`create_playlist` and n-th `add_to_playlist` call. -/
structure Env where
  titleInput : String
  enumResult : Except String (List (String × String))
  createResult : Nat → CreateOutcome
  addResult : Nat → Bool

/-- The playlist id yielded by the n-th create call, when it returned a
response with a truthy id. -/
def Env.createTruthy (env : Env) (c : Nat) : Option Nat :=
  match env.createResult c with
  | .raiseErr _ => none
  | .ok r => extractPid r

/-- Accumulated effect of handling a run of batches: the add events issued,
the batches handled (each once, however many attempts it took), the ids
whose add call succeeded, the increase of `total_added`, and the add-call
counter after the run. -/
structure BatchAcc where
  events : List Event
  processed : List (List String)
  addedIds : List String
  added : Nat
  k : Nat
deriving DecidableEq

/-- One iteration of the batch loop body with its retry
(`try/except RuntimeError` with one retry, lines 269-281 and 296-308):
attempt the call; on failure retry once; on second failure log and move
on.  `k` is the index of the attempt in the global add-call sequence. -/
def addRetryStep (env : Env) (pid : Nat) (batch : List String) (k : Nat) : BatchAcc :=
  match env.addResult k with
  | true => ⟨[.addCall pid batch true], [batch], batch, batch.length, k + 1⟩
  | false =>
    match env.addResult (k + 1) with
    | true =>
      ⟨[.addCall pid batch false, .addCall pid batch true], [batch], batch,
        batch.length, k + 2⟩
    | false =>
      ⟨[.addCall pid batch false, .addCall pid batch false], [batch], [], 0, k + 2⟩

/-- The batch loop over a precomputed list of batches (lines 267-281 for
the first playlist, 294-308 inside the overflow loop). -/
def runBatches (env : Env) (pid : Nat) (batches : List (List String)) (k : Nat) :
    BatchAcc :=
  match batches with
  | [] => ⟨[], [], [], 0, k⟩
  | b :: rest =>
    let s := addRetryStep env pid b k
    let r := runBatches env pid rest s.k
    ⟨s.events ++ r.events, s.processed ++ r.processed, s.addedIds ++ r.addedIds,
      s.added + r.added, r.k⟩

/-- Accumulated effect of the overflow loop. `aborted = some msg` when a
`create_playlist` call raised (the exception is not caught, line 289). -/
structure OvAcc where
  events : List Event
  playlists : List Playlist
  processed : List (List String)
  added : Nat
  k : Nat
  aborted : Option String
deriving DecidableEq

/-- The title of the overflow playlist for `part`:
`f"{playlist_title} ({part + 1})"` (line 287). -/
def overflowTitle (base : String) (part : Nat) : String :=
  base ++ " (" ++ toString (part + 1) ++ ")"

/-- The overflow loop `for part in range(1, ceil(len/1000))` (lines
284-308): create a playlist titled `"{title} ({part+1})"` for the chunk
`audio_ids[part*1000 : part*1000+1000]`; skip the chunk when the response
has no usable id; upload it in batches of 50 otherwise.  A raising create
call aborts the whole program.  `c` / `k` are the global create- and
add-call counters. -/
def runOverflow (env : Env) (ids : List String) (base : String)
    (parts : List Nat) (c k : Nat) : OvAcc :=
  match parts with
  | [] => ⟨[], [], [], 0, k, none⟩
  | part :: rest =>
    let chunk := pySlice ids (part * PLAYLIST_MAX) PLAYLIST_MAX
    let t := overflowTitle base part
    match env.createResult c with
    | .raiseErr m => ⟨[.createCall t (.raiseErr m)], [], [], 0, k, some m⟩
    | .ok resp =>
      match extractPid resp with
      | none =>
        let r := runOverflow env ids base rest (c + 1) k
        ⟨.createCall t (.ok resp) :: r.events, r.playlists, r.processed, r.added,
          r.k, r.aborted⟩
      | some pid =>
        let bs := (pyRange 0 chunk.length BATCH_SIZE).map fun j => pySlice chunk j BATCH_SIZE
        let rb := runBatches env pid bs k
        let r := runOverflow env ids base rest (c + 1) rb.k
        ⟨.createCall t (.ok resp) :: (rb.events ++ r.events),
          ⟨t, pid, rb.addedIds⟩ :: r.playlists,
          rb.processed ++ r.processed, rb.added + r.added, r.k, r.aborted⟩

/-- What one run of `main` leaves behind. -/
structure RunResult where
  events : List Event
  playlists : List Playlist
  processed : List (List String)
  totalAdded : Nat
  outcome : Outcome
deriving DecidableEq

/-- The batch start indices of the first-playlist loop,
`range(BATCH_SIZE, min(PLAYLIST_MAX, len(audio_ids)), BATCH_SIZE)`
(line 267), mapped to the slices `audio_ids[i : i + BATCH_SIZE]`. -/
def uploadBatches (ids : List String) : List (List String) :=
  (pyRange BATCH_SIZE (min PLAYLIST_MAX ids.length) BATCH_SIZE).map
    fun i => pySlice ids i BATCH_SIZE

/-- The overflow part numbers,
`range(1, (len(audio_ids) + PLAYLIST_MAX - 1) // PLAYLIST_MAX)` (line 284). -/
def uploadParts (ids : List String) : List Nat :=
  pyRange 1 ((ids.length + PLAYLIST_MAX - 1) / PLAYLIST_MAX) 1

/-- Lines 262-310 of `main`: the upload phase entered once the first
playlist was created (`.ok resp`) and its id extracted (`pid`).  The very
first batch is uploaded without retry protection (line 262) and
`total_added = BATCH_SIZE` on its success (line 263); the remaining
batches of `audio_ids[:1000]` run through the retry loop; then the
overflow loop handles `audio_ids[1000:]` in chunks of `PLAYLIST_MAX`.
The returned events include the two that already happened (enumeration
and the first create). -/
def runUpload (env : Env) (title : String) (ids : List String)
    (resp : RespObj) (pid : Nat) : RunResult :=
  let batch0 := ids.take BATCH_SIZE
  match env.addResult 0 with
  | false =>
    ⟨[.enumerate, .createCall title (.ok resp), .addCall pid batch0 false],
      [⟨title, pid, []⟩], [batch0], 0, .uncaughtAdd⟩
  | true =>
    let rb := runBatches env pid (uploadBatches ids) 1
    let ov := runOverflow env ids title (uploadParts ids) 1 rb.k
    let evs := [.enumerate, .createCall title (.ok resp),
      .addCall pid batch0 true] ++ rb.events ++ ov.events
    let total := BATCH_SIZE + rb.added + ov.added
    let pls := ⟨title, pid, batch0 ++ rb.addedIds⟩ :: ov.playlists
    let processed := batch0 :: (rb.processed ++ ov.processed)
    match ov.aborted with
    | some m => ⟨evs, pls, processed, total, .uncaughtCreate m⟩
    | none => ⟨evs, pls, processed, total, .done total (1 + ov.playlists.length)⟩

/-- Function `main` (transfer_to_album.py lines 203-310), from the playlist-title
prompt onward: strip the title and return if empty; enumerate (recorded as
`Event.enumerate`), aborting on an exception; return if fewer than
`MIN_TRACKS` tracks; reverse the track list and format the composite ids;
create the first playlist and upload `audio_ids[:1000]` in batches of 50 —
the very first batch without retry protection, `total_added = BATCH_SIZE`
on its success — then run the overflow loop for the remaining chunks. -/
def mainRun (env : Env) : RunResult :=
  let title := pyStrip env.titleInput
  if title = "" then ⟨[], [], [], 0, .emptyTitle⟩
  else
    match env.enumResult with
    | .error e => ⟨[.enumerate], [], [], 0, .enumFailed e⟩
    | .ok tracks =>
      if tracks.length < MIN_TRACKS then
        ⟨[.enumerate], [], [], 0, .tooFewTracks tracks.length⟩
      else
        let ids := tracks.reverse.map fun p => p.1 ++ "_" ++ p.2
        match env.createResult 0 with
        | .raiseErr m =>
          ⟨[.enumerate, .createCall title (.raiseErr m)], [], [], 0, .uncaughtCreate m⟩
        | .ok resp =>
          match extractPid resp with
          | none =>
            ⟨[.enumerate, .createCall title (.ok resp)], [], [], 0, .createNoId⟩
          | some pid => runUpload env title ids resp pid

theorem mem_pyRange {a b s i : Nat} (h : i ∈ pyRange a b s) :
    (∃ j, i = a + j * s) ∧ i < b := by
  unfold pyRange at h
  rcases List.mem_map.mp h with ⟨j, hj, rfl⟩
  have hjlt : j < (b - a + s - 1) / s := List.mem_range.mp hj
  refine ⟨⟨j, rfl⟩, ?_⟩
  have h1 : j + 1 ≤ (b - a + s - 1) / s := hjlt
  have h2 : (j + 1) * s ≤ ((b - a + s - 1) / s) * s := Nat.mul_le_mul_right _ h1
  have h3 : ((b - a + s - 1) / s) * s ≤ b - a + s - 1 := Nat.div_mul_le_self _ _
  have h4 : (j + 1) * s = j * s + s := by ring
  have h5 : (j + 1) * s ≤ b - a + s - 1 := le_trans h2 h3
  rcases Nat.eq_zero_or_pos s with hs | hs
  · subst hs
    simp [pyRange] at h
  · omega

theorem pyRange_one (s q : Nat) : pyRange s q 1 = List.range' s (q - s) := by
  unfold pyRange
  rw [List.range'_eq_map_range]
  simp

/-- The first-playlist batches computed by `main` — the unprotected first
batch followed by the slices at `range(50, min(1000, len), 50)` — are the
50-chunks of `audio_ids[:1000]`. -/
theorem first_batches (ids : List String) (hlen : 500 ≤ ids.length) :
    ids.take 50 :: (pyRange 50 (min 1000 ids.length) 50).map (fun i => pySlice ids i 50)
      = chunksOf 50 (ids.take 1000) := by
  have hM : (ids.take 1000).length = min 1000 ids.length := by
    simp [List.length_take]
  rw [← slices_eq_chunksOf 50 (by norm_num), hM,
    pyRange_cons (by norm_num) (by omega : 0 < min 1000 ids.length)]
  simp only [List.map_cons, Nat.zero_add]
  refine congrArg₂ _ ?_ ?_
  · simp [pySlice, List.take_take]
  · symm
    apply List.map_congr_left
    intro i hi
    rcases mem_pyRange hi with ⟨⟨j, rfl⟩, hiM⟩
    have hle : 50 + j * 50 + 50 ≤ 1000 := by
      have : 50 + j * 50 < 1000 := by omega
      omega
    simp only [pySlice, List.drop_take]
    rw [List.take_take, min_eq_left (by omega)]

/-- The overflow chunks `audio_ids[part*1000 : part*1000+1000]` for
`part in range(1, ceil(len/1000))` are the 1000-chunks of
`audio_ids[1000:]`. -/
theorem overflow_chunks (ids : List String) :
    (List.range' 1 ((ids.length + 999) / 1000 - 1)).map
        (fun p => pySlice ids (p * 1000) 1000)
      = chunksOf 1000 (ids.drop 1000) := by
  rw [← slices_eq_chunksOf 1000 (by norm_num)]
  have hcount : (ids.length + 999) / 1000 - 1
      = ((ids.drop 1000).length - 0 + 1000 - 1) / 1000 := by
    simp only [List.length_drop, Nat.sub_zero]
    rcases le_or_lt 1000 ids.length with hd | hd
    · have h1 : ids.length + 999 = (ids.length - 1000 + 999) + 1000 := by omega
      rw [h1, Nat.add_div_right _ (by norm_num)]
      omega
    · have h1 : ids.length - 1000 = 0 := by omega
      have h2 : (ids.length + 999) / 1000 < 2 :=
        (Nat.div_lt_iff_lt_mul (by norm_num)).mpr (by omega)
      rw [h1]
      rw [Nat.div_eq_of_lt (by omega : 0 + 999 < 1000)]
      omega
  unfold pyRange
  rw [List.range'_eq_map_range, hcount]
  rw [List.map_map, List.map_map]
  apply List.map_congr_left
  intro j _
  simp only [Function.comp_apply, pySlice, List.drop_drop, Nat.zero_add]
  congr 2
  ring

theorem addRetryStep_processed (env : Env) (pid : Nat) (b : List String) (k : Nat) :
    (addRetryStep env pid b k).processed = [b] := by
  unfold addRetryStep
  cases env.addResult k <;> cases env.addResult (k + 1) <;> rfl

theorem addRetryStep_events_isCreate (env : Env) (pid : Nat) (b : List String) (k : Nat) :
    (addRetryStep env pid b k).events.countP Event.isCreate = 0 := by
  unfold addRetryStep
  cases env.addResult k <;> cases env.addResult (k + 1) <;> rfl

theorem runBatches_cons (env : Env) (pid : Nat) (b : List String)
    (rest : List (List String)) (k : Nat) :
    runBatches env pid (b :: rest) k =
      ⟨(addRetryStep env pid b k).events
          ++ (runBatches env pid rest (addRetryStep env pid b k).k).events,
        (addRetryStep env pid b k).processed
          ++ (runBatches env pid rest (addRetryStep env pid b k).k).processed,
        (addRetryStep env pid b k).addedIds
          ++ (runBatches env pid rest (addRetryStep env pid b k).k).addedIds,
        (addRetryStep env pid b k).added
          + (runBatches env pid rest (addRetryStep env pid b k).k).added,
        (runBatches env pid rest (addRetryStep env pid b k).k).k⟩ := rfl

theorem runBatches_processed (env : Env) (pid : Nat) :
    ∀ (bs : List (List String)) (k : Nat), (runBatches env pid bs k).processed = bs := by
  intro bs
  induction bs with
  | nil => intro k; rfl
  | cons b rest ih =>
    intro k
    show (addRetryStep env pid b k).processed ++ _ = _
    rw [addRetryStep_processed, ih]
    rfl

theorem runBatches_events_isCreate (env : Env) (pid : Nat) :
    ∀ (bs : List (List String)) (k : Nat),
      (runBatches env pid bs k).events.countP Event.isCreate = 0 := by
  intro bs
  induction bs with
  | nil => intro k; rfl
  | cons b rest ih =>
    intro k
    show ((addRetryStep env pid b k).events ++ _).countP _ = 0
    rw [List.countP_append, addRetryStep_events_isCreate, ih]

/-- When every add call succeeds, the batch loop issues exactly one
successful add event per batch, in order. -/
theorem runBatches_all_ok (env : Env) (pid : Nat)
    (h : ∀ j, env.addResult j = true) :
    ∀ (bs : List (List String)) (k : Nat),
      runBatches env pid bs k =
        ⟨bs.map (fun b => .addCall pid b true), bs, bs.flatten,
          (bs.map List.length).sum, k + bs.length⟩ := by
  intro bs
  induction bs with
  | nil => intro k; rfl
  | cons b rest ih =>
    intro k
    show runBatches env pid (b :: rest) k = _
    unfold runBatches
    rw [show addRetryStep env pid b k
        = ⟨[.addCall pid b true], [b], b, b.length, k + 1⟩ by
      unfold addRetryStep
      rw [h k]]
    dsimp only
    rw [ih (k + 1)]
    simp only [BatchAcc.mk.injEq]
    refine ⟨by simp, by simp, by simp, by simp, by simp only [List.length_cons]; omega⟩

theorem countP_isAdd_eq_filterMap (evs : List Event) :
    evs.countP Event.isAdd = (evs.filterMap Event.addBatch).length := by
  induction evs with
  | nil => rfl
  | cons e rest ih =>
    cases e <;>
      simp [List.countP_cons, List.filterMap_cons, Event.isAdd, Event.addBatch, ih]

/-- With every add call succeeding, the overflow loop over the consecutive
parts `s, s+1, …, s+n-1` (create-call counter starting at `s`, so part `p`
is create call number `p`): it creates one playlist per part; parts whose
create response had a usable id receive their full chunk, the others are
skipped; nothing aborts. -/
theorem runOverflow_all_ok (env : Env) (ids : List String) (base : String)
    (hnr : ∀ c m, env.createResult c ≠ .raiseErr m)
    (hadd : ∀ j, env.addResult j = true) :
    ∀ (n s k : Nat),
      (runOverflow env ids base (List.range' s n) s k).playlists =
        ((List.range' s n).filter (fun p => (env.createTruthy p).isSome)).map
          (fun p => ⟨overflowTitle base p, (env.createTruthy p).getD 0,
            pySlice ids (p * 1000) 1000⟩) ∧
      (runOverflow env ids base (List.range' s n) s k).processed =
        (((List.range' s n).filter (fun p => (env.createTruthy p).isSome)).map
          (fun p => chunksOf 50 (pySlice ids (p * 1000) 1000))).flatten ∧
      (runOverflow env ids base (List.range' s n) s k).events.countP Event.isCreate
        = n ∧
      (runOverflow env ids base (List.range' s n) s k).events.filterMap Event.addBatch
        = (runOverflow env ids base (List.range' s n) s k).processed ∧
      (runOverflow env ids base (List.range' s n) s k).aborted = none := by
  intro n
  induction n with
  | zero =>
    intro s k
    simp only [List.range'_zero]
    exact ⟨rfl, rfl, rfl, rfl, rfl⟩
  | succ n ih =>
    intro s k
    rw [List.range'_succ]
    cases hcs : env.createResult s with
    | raiseErr m => exact absurd hcs (hnr s m)
    | ok resp =>
      have hct : env.createTruthy s = extractPid resp := by
        simp [Env.createTruthy, hcs]
      cases hpid : extractPid resp with
      | none =>
        have hfalse : (env.createTruthy s).isSome = false := by
          rw [hct, hpid]
          rfl
        simp only [runOverflow, hcs, hpid, BATCH_SIZE, PLAYLIST_MAX]
        rcases ih (s + 1) k with ⟨ih1, ih2, ih3, ih4, ih5⟩
        refine ⟨?_, ?_, ?_, ?_, ?_⟩
        · rw [List.filter_cons_of_neg (by simp [hfalse])]
          exact ih1
        · rw [List.filter_cons_of_neg (by simp [hfalse])]
          exact ih2
        · simp [List.countP_cons, Event.isCreate, ih3]
        · simp [List.filterMap_cons, Event.addBatch, ih4, ih2]
        · exact ih5
      | some pid =>
        have htrue : (env.createTruthy s).isSome = true := by
          rw [hct, hpid]
          rfl
        have hgd : (env.createTruthy s).getD 0 = pid := by
          rw [hct, hpid]
          rfl
        have hbs : (pyRange 0 (pySlice ids (s * 1000) 1000).length 50).map
            (fun j => pySlice (pySlice ids (s * 1000) 1000) j 50)
            = chunksOf 50 (pySlice ids (s * 1000) 1000) :=
          slices_eq_chunksOf 50 (by norm_num) _
        simp only [runOverflow, hcs, hpid, BATCH_SIZE, PLAYLIST_MAX]
        rw [runBatches_all_ok env pid hadd, hbs]
        rcases ih (s + 1) _ with ⟨ih1, ih2, ih3, ih4, ih5⟩
        refine ⟨?_, ?_, ?_, ?_, ?_⟩
        · rw [List.filter_cons_of_pos (by simp [htrue])]
          simp only [List.map_cons]
          rw [ih1, hgd]
          rw [chunksOf_flatten 50 (by norm_num)]
        · rw [List.filter_cons_of_pos (by simp [htrue])]
          simp only [List.map_cons, List.flatten_cons]
          rw [ih2]
        · simp only [List.countP_cons, List.countP_append, ih3, List.countP_map]
          simp [Function.comp, Event.isCreate]
        · simp only [List.filterMap_cons, List.filterMap_append, Event.addBatch, ih4, ih2,
            List.filterMap_map]
          simp [Function.comp_def, Event.addBatch]
        · exact ih5

/-- As long as no create call raises, the batches the overflow loop
handles are exactly the 50-chunks of the chunks whose playlist got a
usable id — whatever the add calls return (failed batches are retried
once, logged and skipped, but still handled exactly once). -/
theorem runOverflow_processed (env : Env) (ids : List String) (base : String)
    (hnr : ∀ c m, env.createResult c ≠ .raiseErr m) :
    ∀ (n s k : Nat),
      (runOverflow env ids base (List.range' s n) s k).processed =
        (((List.range' s n).filter (fun p => (env.createTruthy p).isSome)).map
          (fun p => chunksOf 50 (pySlice ids (p * 1000) 1000))).flatten := by
  intro n
  induction n with
  | zero =>
    intro s k
    simp only [List.range'_zero]
    rfl
  | succ n ih =>
    intro s k
    rw [List.range'_succ]
    cases hcs : env.createResult s with
    | raiseErr m => exact absurd hcs (hnr s m)
    | ok resp =>
      have hct : env.createTruthy s = extractPid resp := by
        simp [Env.createTruthy, hcs]
      cases hpid : extractPid resp with
      | none =>
        have hfalse : (env.createTruthy s).isSome = false := by
          rw [hct, hpid]
          rfl
        simp only [runOverflow, hcs, hpid, BATCH_SIZE, PLAYLIST_MAX]
        rw [ih (s + 1) k, List.filter_cons_of_neg (by simp [hfalse])]
      | some pid =>
        have htrue : (env.createTruthy s).isSome = true := by
          rw [hct, hpid]
          rfl
        have hbs : (pyRange 0 (pySlice ids (s * 1000) 1000).length 50).map
            (fun j => pySlice (pySlice ids (s * 1000) 1000) j 50)
            = chunksOf 50 (pySlice ids (s * 1000) 1000) :=
          slices_eq_chunksOf 50 (by norm_num) _
        simp only [runOverflow, hcs, hpid, BATCH_SIZE, PLAYLIST_MAX]
        rw [runBatches_processed, hbs, List.filter_cons_of_pos (by simp [htrue])]
        simp only [List.map_cons, List.flatten_cons]
        rw [ih (s + 1) _]

/-- Unfolding of the upload phase when the first add call succeeds. -/
theorem runUpload_eq (env : Env) (title : String) (ids : List String)
    (resp : RespObj) (pid : Nat) (ha0 : env.addResult 0 = true) :
    runUpload env title ids resp pid =
      let batch0 := ids.take BATCH_SIZE
      let rb := runBatches env pid (uploadBatches ids) 1
      let ov := runOverflow env ids title (uploadParts ids) 1 rb.k
      let evs := [.enumerate, .createCall title (.ok resp),
        .addCall pid batch0 true] ++ rb.events ++ ov.events
      let total := BATCH_SIZE + rb.added + ov.added
      let pls := Playlist.mk title pid (batch0 ++ rb.addedIds) :: ov.playlists
      let processed := batch0 :: (rb.processed ++ ov.processed)
      match ov.aborted with
      | some m => ⟨evs, pls, processed, total, .uncaughtCreate m⟩
      | none => ⟨evs, pls, processed, total, .done total (1 + ov.playlists.length)⟩ := by
  unfold runUpload
  rw [ha0]

/-- The `range(BATCH_SIZE, min(PLAYLIST_MAX, len), BATCH_SIZE)` slices,
together with the unprotected first batch, are the 50-chunks of
`audio_ids[:1000]`. -/
theorem uploadBatches_eq (ids : List String) (hlen : 500 ≤ ids.length) :
    ids.take 50 :: uploadBatches ids = chunksOf 50 (ids.take 1000) := by
  unfold uploadBatches
  simp only [BATCH_SIZE, PLAYLIST_MAX]
  exact first_batches ids hlen

theorem uploadParts_eq (ids : List String) :
    uploadParts ids = List.range' 1 ((ids.length + 999) / 1000 - 1) := by
  unfold uploadParts
  simp only [PLAYLIST_MAX]
  rw [pyRange_one]
  congr 2

/-- With the first add call succeeding and no create call raising, the
batches the whole upload phase handles are exactly the 50-chunks of
`audio_ids[:1000]` followed by the 50-chunks of all overflow chunks whose
playlist got a usable id. -/
theorem runUpload_processed (env : Env) (title : String) (ids : List String)
    (resp : RespObj) (pid : Nat)
    (hlen : 500 ≤ ids.length) (ha0 : env.addResult 0 = true)
    (hnr : ∀ c m, env.createResult c ≠ .raiseErr m) :
    (runUpload env title ids resp pid).processed =
      chunksOf 50 (ids.take 1000) ++
      (((List.range' 1 ((ids.length + 999) / 1000 - 1)).filter
          (fun p => (env.createTruthy p).isSome)).map
        (fun p => chunksOf 50 (pySlice ids (p * 1000) 1000))).flatten := by
  rw [runUpload_eq env title ids resp pid ha0, uploadParts_eq]
  cases habort : (runOverflow env ids title
      (List.range' 1 ((ids.length + 999) / 1000 - 1)) 1
      (runBatches env pid (uploadBatches ids) 1).k).aborted with
  | none =>
    simp only [habort]
    rw [runBatches_processed]
    show ids.take 50 :: (uploadBatches ids ++ _) = _
    rw [← List.cons_append, uploadBatches_eq ids hlen]
    exact congrArg _ (runOverflow_processed env ids title hnr _ 1 _)
  | some m =>
    simp only [habort]
    rw [runBatches_processed]
    show ids.take 50 :: (uploadBatches ids ++ _) = _
    rw [← List.cons_append, uploadBatches_eq ids hlen]
    exact congrArg _ (runOverflow_processed env ids title hnr _ 1 _)

/-- Gluing the two halves: the 50-chunks of `audio_ids[:1000]` followed by
the 50-chunks of the overflow chunks are the 50-chunks of the whole list. -/
theorem chunksOf_take_overflow (ids : List String) :
    chunksOf 50 (ids.take 1000) ++
      ((List.range' 1 ((ids.length + 999) / 1000 - 1)).map
        (fun p => chunksOf 50 (pySlice ids (p * 1000) 1000))).flatten
      = chunksOf 50 ids := by
  have hcomp : (fun p => chunksOf 50 (pySlice ids (p * 1000) 1000))
      = chunksOf 50 ∘ (fun p => pySlice ids (p * 1000) 1000) := rfl
  rw [hcomp, ← List.map_map, overflow_chunks]
  have h2 := chunksOf_chunksOf_flatten 50 20 (by norm_num) (by norm_num) (ids.drop 1000)
  rw [show (20 * 50 : Nat) = 1000 by norm_num] at h2
  rw [h2]
  have h3 := chunksOf_append_split 50 20 (by norm_num) ids
  rw [show (20 * 50 : Nat) = 1000 by norm_num] at h3
  exact h3

/-- With every add call succeeding and every create call returning a
usable id, the upload phase handles exactly the 50-chunks of the full id
list, submits each batch once, makes one create call per playlist, and the
playlists receive exactly the consecutive 1000-chunks, the overflow ones
under suffixed titles. -/
theorem runUpload_all_ok (env : Env) (title : String) (ids : List String)
    (resp : RespObj) (pid : Nat)
    (hlen : 500 ≤ ids.length)
    (hadd : ∀ j, env.addResult j = true)
    (hcr : ∀ c, (env.createTruthy c).isSome = true) :
    (runUpload env title ids resp pid).processed = chunksOf 50 ids ∧
    (runUpload env title ids resp pid).playlists.map (fun p => (p.title, p.added)) =
      (title, ids.take 1000) ::
        (List.range' 1 ((ids.length + 999) / 1000 - 1)).map
          (fun p => (overflowTitle title p, pySlice ids (p * 1000) 1000)) ∧
    (runUpload env title ids resp pid).events.countP Event.isCreate
      = (ids.length + 999) / 1000 ∧
    (runUpload env title ids resp pid).events.filterMap Event.addBatch
      = chunksOf 50 ids ∧
    (runUpload env title ids resp pid).playlists.length = (ids.length + 999) / 1000 := by
  have hnr : ∀ c m, env.createResult c ≠ .raiseErr m := by
    intro c m hc
    have h := hcr c
    simp [Env.createTruthy, hc] at h
  have hq : 1 ≤ (ids.length + 999) / 1000 :=
    (Nat.one_le_div_iff (by norm_num)).mpr (by omega)
  have h1 : (runUpload env title ids resp pid).processed = chunksOf 50 ids := by
    rw [runUpload_processed env title ids resp pid hlen (hadd 0) hnr]
    rw [List.filter_eq_self.mpr (fun a _ => hcr a)]
    exact chunksOf_take_overflow ids
  refine ⟨h1, ?_, ?_, ?_, ?_⟩
  all_goals
    rw [runUpload_eq env title ids resp pid (hadd 0), uploadParts_eq]
    rw [runBatches_all_ok env pid hadd]
    obtain ⟨hov1, hov2, hov3, hov4, hov5⟩ :=
      runOverflow_all_ok env ids title hnr hadd ((ids.length + 999) / 1000 - 1) 1
        (1 + (uploadBatches ids).length)
    rw [List.filter_eq_self.mpr (fun a _ => hcr a)] at hov1 hov2
    simp only [hov5, BATCH_SIZE]
  · -- playlists and their contents
    rw [List.map_cons, hov1, List.map_map]
    refine congrArg₂ _ ?_ rfl
    show (title, ids.take 50 ++ (uploadBatches ids).flatten) = (title, ids.take 1000)
    refine congrArg _ ?_
    rw [show ids.take 50 ++ (uploadBatches ids).flatten
        = (ids.take 50 :: uploadBatches ids).flatten from rfl]
    rw [uploadBatches_eq ids hlen, chunksOf_flatten 50 (by norm_num)]
  · -- one create call per playlist
    simp only [List.countP_append, List.countP_cons, List.countP_nil, List.countP_map,
      hov3, Function.comp_def, Event.isCreate]
    simp only [List.countP_false]
    norm_num
    omega
  · -- each 50-chunk submitted exactly once, in order
    simp only [List.filterMap_append, List.filterMap_cons, Event.addBatch, hov4, hov2,
      List.filterMap_map]
    simp only [Function.comp_def, Event.addBatch, List.filterMap_some,
      List.filterMap_nil, List.nil_append]
    show (ids.take 50 :: uploadBatches ids) ++ _ = _
    rw [uploadBatches_eq ids hlen]
    exact chunksOf_take_overflow ids
  · -- one playlist per 1000-chunk
    rw [List.length_cons, hov1, List.length_map, List.length_range']
    omega

/-- When the title is non-empty, enumeration succeeds with enough tracks,
and the first create call returns a usable id, `main` proceeds to the
upload phase on the reversed, formatted id list. -/
theorem mainRun_eq_upload (env : Env) (tracks : List (String × String))
    (resp : RespObj) (pid : Nat)
    (ht : ¬ pyStrip env.titleInput = "")
    (henum : env.enumResult = .ok tracks)
    (hlen : ¬ tracks.length < MIN_TRACKS)
    (hc0 : env.createResult 0 = .ok resp)
    (hpid : extractPid resp = some pid) :
    mainRun env = runUpload env (pyStrip env.titleInput)
      (tracks.reverse.map fun p => p.1 ++ "_" ++ p.2) resp pid := by
  unfold mainRun
  simp only [henum, hc0, hpid, if_neg ht, if_neg hlen]

theorem createTruthy_elim {env : Env} {c : Nat}
    (h : (env.createTruthy c).isSome = true) :
    ∃ r p, env.createResult c = .ok r ∧ extractPid r = some p := by
  cases hcs : env.createResult c with
  | raiseErr m =>
    simp only [Env.createTruthy, hcs] at h
    simp at h
  | ok r =>
    simp only [Env.createTruthy, hcs] at h
    cases hp : extractPid r with
    | none =>
      rw [hp] at h
      simp at h
    | some p => exact ⟨r, p, rfl, hp⟩

/-- With every add call succeeding and no create call raising, the
playlists the upload phase leaves behind are the first one with
`audio_ids[:1000]` and one suffixed-title playlist with its full chunk for
every overflow part whose create response carried a usable id; the other
overflow chunks are skipped without touching the earlier playlists. -/
theorem runUpload_playlists (env : Env) (title : String) (ids : List String)
    (resp : RespObj) (pid : Nat)
    (hlen : 500 ≤ ids.length)
    (hadd : ∀ j, env.addResult j = true)
    (hnr : ∀ c m, env.createResult c ≠ .raiseErr m) :
    (runUpload env title ids resp pid).playlists.map (fun p => (p.title, p.added)) =
      (title, ids.take 1000) ::
        ((List.range' 1 ((ids.length + 999) / 1000 - 1)).filter
          (fun p => (env.createTruthy p).isSome)).map
          (fun p => (overflowTitle title p, pySlice ids (p * 1000) 1000)) := by
  rw [runUpload_eq env title ids resp pid (hadd 0), uploadParts_eq]
  rw [runBatches_all_ok env pid hadd]
  obtain ⟨hov1, hov2, hov3, hov4, hov5⟩ :=
    runOverflow_all_ok env ids title hnr hadd ((ids.length + 999) / 1000 - 1) 1
      (1 + (uploadBatches ids).length)
  simp only [hov5, BATCH_SIZE]
  rw [List.map_cons, hov1, List.map_map]
  refine congrArg₂ _ ?_ rfl
  show (title, ids.take 50 ++ (uploadBatches ids).flatten) = (title, ids.take 1000)
  refine congrArg _ ?_
  rw [show ids.take 50 ++ (uploadBatches ids).flatten
      = (ids.take 50 :: uploadBatches ids).flatten from rfl]
  rw [uploadBatches_eq ids hlen, chunksOf_flatten 50 (by norm_num)]

theorem overflowTitle_one (t : String) : overflowTitle t 1 = t ++ " (2)" := by
  unfold overflowTitle
  rw [String.append_assoc, String.append_assoc]
  refine congrArg _ ?_
  rfl

/-- C10: if the playlist title entered at the prompt is empty after
stripping whitespace, the program returns immediately: no enumeration is
attempted and no createPlaylist or addToPlaylist call is made (the event
trace is empty). -/
theorem claim_C10 (env : Env) (h : pyStrip env.titleInput = "") :
    mainRun env = ⟨[], [], [], 0, .emptyTitle⟩ := by
  unfold mainRun
  rw [if_pos h]

theorem claim_C10_witness :
    (pyStrip "  " = "") ∧
    mainRun ⟨"  ", .error "err", fun _ => .raiseErr "m", fun _ => false⟩
      = ⟨[], [], [], 0, .emptyTitle⟩ :=
  ⟨by decide, claim_C10 _ (by decide)⟩

/-- C6: if enumeration raises any exception, the whole transfer is
aborted: the program prints an error and returns, and no createPlaylist or
addToPlaylist call is ever made (the event trace holds only the
enumeration). -/
theorem claim_C6 (env : Env) (msg : String)
    (ht : ¬ pyStrip env.titleInput = "") (henum : env.enumResult = .error msg) :
    mainRun env = ⟨[.enumerate], [], [], 0, .enumFailed msg⟩ := by
  unfold mainRun
  simp only [henum, if_neg ht]

theorem claim_C6_witness :
    (¬ pyStrip "x" = "") ∧
    mainRun ⟨"x", .error "auth failed", fun _ => .raiseErr "m", fun _ => false⟩
      = ⟨[.enumerate], [], [], 0, .enumFailed "auth failed"⟩ :=
  ⟨by decide, claim_C6 _ "auth failed" (by decide) rfl⟩

/-- C2: for every enumerated track list of fewer than 500 tracks
(including the empty list), the program returns right after enumeration:
no createPlaylist call and no addToPlaylist call is made. -/
theorem claim_C2 (env : Env) (tracks : List (String × String))
    (ht : ¬ pyStrip env.titleInput = "") (henum : env.enumResult = .ok tracks)
    (hlen : tracks.length < MIN_TRACKS) :
    mainRun env = ⟨[.enumerate], [], [], 0, .tooFewTracks tracks.length⟩ := by
  unfold mainRun
  simp only [henum, if_neg ht, if_pos hlen]

theorem claim_C2_witness :
    (([] : List (String × String)).length < MIN_TRACKS) ∧
    mainRun ⟨"x", .ok [], fun _ => .raiseErr "m", fun _ => false⟩
      = ⟨[.enumerate], [], [], 0, .tooFewTracks 0⟩ :=
  ⟨by decide, claim_C2 _ [] (by decide) rfl (by decide)⟩

/-- C1: for every enumerated track list of length at least 500, assuming
every createPlaylist call returns a usable id and every addToPlaylist call
succeeds, the transfer issues exactly `⌈total/50⌉` addToPlaylist calls,
makes exactly `⌈total/1000⌉` createPlaylist calls, and creates exactly
`⌈total/1000⌉` playlists. -/
theorem claim_C1 (env : Env) (tracks : List (String × String))
    (ht : ¬ pyStrip env.titleInput = "")
    (henum : env.enumResult = .ok tracks)
    (hlen : 500 ≤ tracks.length)
    (hadd : ∀ j, env.addResult j = true)
    (hcr : ∀ c, (env.createTruthy c).isSome = true) :
    (mainRun env).events.countP Event.isAdd = (tracks.length + 49) / 50 ∧
    (mainRun env).events.countP Event.isCreate = (tracks.length + 999) / 1000 ∧
    (mainRun env).playlists.length = (tracks.length + 999) / 1000 := by
  obtain ⟨resp, pid, hc0, hpid⟩ := createTruthy_elim (hcr 0)
  rw [mainRun_eq_upload env tracks resp pid ht henum (by simp only [MIN_TRACKS]; omega) hc0 hpid]
  have hids : (tracks.reverse.map fun p => p.1 ++ "_" ++ p.2).length = tracks.length := by
    simp
  obtain ⟨hu1, hu2, hu3, hu4, hu5⟩ :=
    runUpload_all_ok env (pyStrip env.titleInput)
      (tracks.reverse.map fun p => p.1 ++ "_" ++ p.2) resp pid
      (by rw [hids]; exact hlen) hadd hcr
  rw [hids] at hu3 hu5
  refine ⟨?_, hu3, hu5⟩
  rw [countP_isAdd_eq_filterMap, hu4, chunksOf_length 50 (by norm_num), hids]
  norm_num

theorem claim_C1_witness :
    (¬ pyStrip "x" = "") ∧
    500 ≤ (List.replicate 500 ("1", "2")).length ∧
    ((mainRun ⟨"x", .ok (List.replicate 500 ("1", "2")),
        fun _ => .ok ⟨some 7, none⟩, fun _ => true⟩).events.countP Event.isAdd = 10 ∧
      (mainRun ⟨"x", .ok (List.replicate 500 ("1", "2")),
        fun _ => .ok ⟨some 7, none⟩, fun _ => true⟩).events.countP Event.isCreate = 1 ∧
      (mainRun ⟨"x", .ok (List.replicate 500 ("1", "2")),
        fun _ => .ok ⟨some 7, none⟩, fun _ => true⟩).playlists.length = 1) := by
  have h := claim_C1 ⟨"x", .ok (List.replicate 500 ("1", "2")),
      fun _ => .ok ⟨some 7, none⟩, fun _ => true⟩ (List.replicate 500 ("1", "2"))
    (by decide) rfl (by simp only [List.length_replicate]; omega) (fun _ => rfl) (fun _ => rfl)
  rw [List.length_replicate] at h
  norm_num at h
  exact ⟨by decide, by simp only [List.length_replicate]; omega, h⟩

/-- C3: for every enumerated track list (of length at least 500, with all
API calls succeeding so that the transfer runs in full), the composite ids
submitted across all addToPlaylist calls, taken in call order, are exactly
the enumerated `(owner_id, track_id)` pairs in reverse enumeration order,
each formatted as `"{owner_id}_{track_id}"`. -/
theorem claim_C3 (env : Env) (tracks : List (String × String))
    (ht : ¬ pyStrip env.titleInput = "")
    (henum : env.enumResult = .ok tracks)
    (hlen : 500 ≤ tracks.length)
    (hadd : ∀ j, env.addResult j = true)
    (hcr : ∀ c, (env.createTruthy c).isSome = true) :
    ((mainRun env).events.filterMap Event.addBatch).flatten
      = tracks.reverse.map (fun p => p.1 ++ "_" ++ p.2) := by
  obtain ⟨resp, pid, hc0, hpid⟩ := createTruthy_elim (hcr 0)
  rw [mainRun_eq_upload env tracks resp pid ht henum (by simp only [MIN_TRACKS]; omega) hc0 hpid]
  have hids : (tracks.reverse.map fun p => p.1 ++ "_" ++ p.2).length = tracks.length := by
    simp
  obtain ⟨hu1, hu2, hu3, hu4, hu5⟩ :=
    runUpload_all_ok env (pyStrip env.titleInput)
      (tracks.reverse.map fun p => p.1 ++ "_" ++ p.2) resp pid
      (by rw [hids]; exact hlen) hadd hcr
  rw [hu4, chunksOf_flatten 50 (by norm_num)]

theorem claim_C3_witness :
    (¬ pyStrip "x" = "") ∧
    ((mainRun ⟨"x", .ok (List.replicate 500 ("1", "2")),
        fun _ => .ok ⟨some 7, none⟩, fun _ => true⟩).events.filterMap
          Event.addBatch).flatten
      = (List.replicate 500 ("1", "2")).reverse.map (fun p => p.1 ++ "_" ++ p.2) :=
  ⟨by decide, claim_C3 _ (List.replicate 500 ("1", "2"))
    (by decide) rfl (by simp only [List.length_replicate]; omega) (fun _ => rfl) (fun _ => rfl)⟩

/-- C7: for an enumerated track list of exactly 1200 tracks with all calls
succeeding, the first playlist, under the user's title, receives positions
0-999 of the reversed composite-id list, and a second playlist titled
`"{title} (2)"` receives positions 1000-1199. -/
theorem claim_C7 (env : Env) (tracks : List (String × String))
    (ht : ¬ pyStrip env.titleInput = "")
    (henum : env.enumResult = .ok tracks)
    (hlen : tracks.length = 1200)
    (hadd : ∀ j, env.addResult j = true)
    (hcr : ∀ c, (env.createTruthy c).isSome = true) :
    (mainRun env).playlists.map (fun p => (p.title, p.added)) =
      [(pyStrip env.titleInput,
          (tracks.reverse.map fun p => p.1 ++ "_" ++ p.2).take 1000),
        (pyStrip env.titleInput ++ " (2)",
          (tracks.reverse.map fun p => p.1 ++ "_" ++ p.2).drop 1000)] := by
  obtain ⟨resp, pid, hc0, hpid⟩ := createTruthy_elim (hcr 0)
  rw [mainRun_eq_upload env tracks resp pid ht henum (by simp only [MIN_TRACKS]; omega) hc0 hpid]
  have hids : (tracks.reverse.map fun p => p.1 ++ "_" ++ p.2).length = tracks.length := by
    simp
  obtain ⟨hu1, hu2, hu3, hu4, hu5⟩ :=
    runUpload_all_ok env (pyStrip env.titleInput)
      (tracks.reverse.map fun p => p.1 ++ "_" ++ p.2) resp pid
      (by rw [hids]; omega) hadd hcr
  have hslice : pySlice (tracks.reverse.map fun p => p.1 ++ "_" ++ p.2) (1 * 1000) 1000
      = (tracks.reverse.map fun p => p.1 ++ "_" ++ p.2).drop 1000 := by
    unfold pySlice
    rw [one_mul]
    apply List.take_of_length_le
    rw [List.length_drop, hids, hlen]
    omega
  rw [hu2, hids, hlen,
    show (1200 + 999) / 1000 - 1 = 1 by norm_num,
    show List.range' 1 1 = [1] from rfl]
  simp only [List.map_cons, List.map_nil]
  rw [overflowTitle_one, hslice]

/-- C9: across a transfer in which the first add call succeeds, the first
create call returns a usable id and no create call raises (add calls may
fail arbitrarily; overflow create calls may come back without an id), the
batches handled — each submitted once, plus at most the one retry of a
failed attempt — are exactly the 50-chunks of `audio_ids[:1000]` followed,
in order, by the 50-chunks of every overflow chunk whose playlist was
created: pairwise-disjoint contiguous slices covering each position of a
created chunk exactly once, omitting none. -/
theorem claim_C9 (env : Env) (tracks : List (String × String))
    (ht : ¬ pyStrip env.titleInput = "")
    (henum : env.enumResult = .ok tracks)
    (hlen : 500 ≤ tracks.length)
    (ha0 : env.addResult 0 = true)
    (hnr : ∀ c m, env.createResult c ≠ .raiseErr m)
    (hc0 : (env.createTruthy 0).isSome = true) :
    (mainRun env).processed =
      chunksOf 50 ((tracks.reverse.map fun p => p.1 ++ "_" ++ p.2).take 1000) ++
      (((List.range' 1 ((tracks.length + 999) / 1000 - 1)).filter
          (fun p => (env.createTruthy p).isSome)).map
        (fun p => chunksOf 50
          (pySlice (tracks.reverse.map fun q => q.1 ++ "_" ++ q.2) (p * 1000) 1000))).flatten := by
  obtain ⟨resp, pid, hc0', hpid⟩ := createTruthy_elim hc0
  rw [mainRun_eq_upload env tracks resp pid ht henum (by simp only [MIN_TRACKS]; omega) hc0' hpid]
  have hids : (tracks.reverse.map fun p => p.1 ++ "_" ++ p.2).length = tracks.length := by
    simp
  rw [runUpload_processed env (pyStrip env.titleInput)
    (tracks.reverse.map fun p => p.1 ++ "_" ++ p.2) resp pid
    (by rw [hids]; exact hlen) ha0 hnr, hids]

theorem claim_C7_witness :
    ((List.replicate 1200 (("1" : String), ("2" : String))).length = 1200) ∧
    (mainRun ⟨"x", .ok (List.replicate 1200 ("1", "2")),
        fun _ => .ok ⟨some 7, none⟩, fun _ => true⟩).playlists.map
          (fun p => (p.title, p.added)) =
      [(pyStrip "x",
          ((List.replicate 1200 ("1", "2")).reverse.map fun p => p.1 ++ "_" ++ p.2).take 1000),
        (pyStrip "x" ++ " (2)",
          ((List.replicate 1200 ("1", "2")).reverse.map fun p => p.1 ++ "_" ++ p.2).drop 1000)] :=
  ⟨by rw [List.length_replicate],
    claim_C7 _ (List.replicate 1200 ("1", "2")) (by decide) rfl
      (by rw [List.length_replicate]) (fun _ => rfl) (fun _ => rfl)⟩

/-- A run with one failing add call (call 3, retried successfully), one
overflow create call answered without an id (part 1), and 2500 tracks. -/
def envC9w : Env :=
  ⟨"x", .ok (List.replicate 2500 ("1", "2")),
    fun c => if c = 1 then .ok ⟨none, none⟩ else .ok ⟨some 7, none⟩,
    fun j => decide (j ≠ 3)⟩

theorem claim_C9_witness :
    (envC9w.addResult 0 = true) ∧ ((envC9w.createTruthy 0).isSome = true) ∧
    (mainRun envC9w).processed =
      chunksOf 50 (((List.replicate 2500 (("1" : String), ("2" : String))).reverse.map
        fun p => p.1 ++ "_" ++ p.2).take 1000) ++
      (((List.range' 1
          (((List.replicate 2500 (("1" : String), ("2" : String))).length + 999) / 1000 - 1)).filter
          (fun p => (envC9w.createTruthy p).isSome)).map
        (fun p => chunksOf 50
          (pySlice ((List.replicate 2500 (("1" : String), ("2" : String))).reverse.map
            fun q => q.1 ++ "_" ++ q.2) (p * 1000) 1000))).flatten :=
  ⟨rfl, rfl,
    claim_C9 envC9w (List.replicate 2500 ("1", "2")) (by decide) rfl
      (by rw [List.length_replicate]; omega) rfl
      (by
        intro c m h
        rw [show envC9w.createResult c
            = (if c = 1 then CreateOutcome.ok ⟨none, none⟩
                else CreateOutcome.ok ⟨some 7, none⟩) from rfl] at h
        by_cases hc : c = 1
        · rw [if_pos hc] at h
          exact CreateOutcome.noConfusion h
        · rw [if_neg hc] at h
          exact CreateOutcome.noConfusion h)
      rfl⟩

/-- A run in which the very first add call fails (all later calls would
succeed). -/
def envC4cx : Env :=
  ⟨"x", .ok (List.replicate 500 ("1", "2")),
    fun _ => .ok ⟨some 7, none⟩, fun j => decide (j ≠ 0)⟩

set_option maxRecDepth 100000 in
/-- C4 counterexample: the claim says every batch whose add call fails
once is retried exactly once and the transfer continues.  For the first
batch this is false: with a single injected failure on the very first
addToPlaylist call (`envC4cx`), exactly one add attempt happens — no
retry — and the run aborts with the exception propagating out of `main`
(line 262 is outside any try/except). -/
theorem claim_C4_counterexample :
    (mainRun envC4cx).events.countP Event.isAdd = 1 ∧
    (mainRun envC4cx).outcome = .uncaughtAdd := by
  constructor
  · rfl
  · rfl

/-- C4 amended: for every batch handled by the retry loop — every batch of
the transfer except the very first, which has no retry protection and
whose failure aborts the program — a failed add call is retried exactly
once; whatever the retry returns, the loop then continues with the
remaining batches, and `total_added` grows only by batches whose add call
succeeded. -/
theorem claim_C4_amended (env : Env) (pid : Nat) (b : List String)
    (rest : List (List String)) (k : Nat)
    (hfail : env.addResult k = false) :
    (runBatches env pid (b :: rest) k).events
      = .addCall pid b false :: .addCall pid b (env.addResult (k + 1))
          :: (runBatches env pid rest (k + 2)).events ∧
    (runBatches env pid (b :: rest) k).added
      = (if env.addResult (k + 1) = true then b.length else 0)
          + (runBatches env pid rest (k + 2)).added ∧
    (runBatches env pid (b :: rest) k).processed = b :: rest := by
  cases h2 : env.addResult (k + 1) with
  | true =>
    have hs : addRetryStep env pid b k
        = ⟨[.addCall pid b false, .addCall pid b true], [b], b, b.length, k + 2⟩ := by
      unfold addRetryStep
      rw [hfail, h2]
    rw [runBatches_cons, hs]
    refine ⟨rfl, by simp, ?_⟩
    show [b] ++ (runBatches env pid rest (k + 2)).processed = b :: rest
    rw [runBatches_processed env pid rest (k + 2)]
    rfl
  | false =>
    have hs : addRetryStep env pid b k
        = ⟨[.addCall pid b false, .addCall pid b false], [b], [], 0, k + 2⟩ := by
      unfold addRetryStep
      rw [hfail, h2]
    rw [runBatches_cons, hs]
    refine ⟨rfl, by simp, ?_⟩
    show [b] ++ (runBatches env pid rest (k + 2)).processed = b :: rest
    rw [runBatches_processed env pid rest (k + 2)]
    rfl

/-- An environment whose very first add call fails and all later ones
succeed. -/
def envC4w : Env :=
  ⟨"", .ok [], fun _ => .raiseErr "m", fun j => decide (j ≠ 0)⟩

theorem claim_C4_amended_witness :
    (envC4w.addResult 0 = false) ∧
    ((runBatches envC4w 5 [["a"], ["b"]] 0).events
        = .addCall 5 ["a"] false :: .addCall 5 ["a"] (envC4w.addResult 1)
            :: (runBatches envC4w 5 [["b"]] 2).events ∧
      (runBatches envC4w 5 [["a"], ["b"]] 0).added
        = (if envC4w.addResult 1 = true then (["a"] : List String).length else 0)
            + (runBatches envC4w 5 [["b"]] 2).added ∧
      (runBatches envC4w 5 [["a"], ["b"]] 0).processed = [["a"], ["b"]]) :=
  ⟨rfl, claim_C4_amended envC4w 5 ["a"] [["b"]] 0 rfl⟩

/-- A run of 2500 tracks (overflow parts 1 and 2) in which the create
call for part 1 raises and every other call would succeed. -/
def envC5cx : Env :=
  ⟨"x", .ok (List.replicate 2500 ("1", "2")),
    fun c => if c = 1 then .raiseErr "err" else .ok ⟨some 7, none⟩,
    fun _ => true⟩

/-- C5 counterexample: the claim says a failing createPlaylist for an
overflow chunk skips that chunk and the transfer continues with the
remaining chunks.  With 2500 tracks there are overflow parts 1 and 2; when
the create call for part 1 raises (`envC5cx`), the claim predicts the
transfer continues (a third create call, for part 2), but the exception
propagates out of `main` (line 289 is outside any try/except): only two
create calls ever happen and the run aborts. -/
theorem claim_C5_counterexample :
    (mainRun envC5cx).events.countP Event.isCreate = 2 ∧
    (mainRun envC5cx).outcome = .uncaughtCreate "err" := by
  have hc0 : envC5cx.createResult 0 = .ok ⟨some 7, none⟩ := rfl
  have hpid : extractPid (⟨some 7, none⟩ : RespObj) = some 7 := rfl
  have hlen : ((List.replicate 2500 (("1" : String), ("2" : String))).reverse.map
      (fun p => p.1 ++ "_" ++ p.2)).length = 2500 := by
    rw [List.length_map, List.length_reverse, List.length_replicate]
  have hov : ∀ k, runOverflow envC5cx
      ((List.replicate 2500 (("1" : String), ("2" : String))).reverse.map
        fun p => p.1 ++ "_" ++ p.2)
      (pyStrip envC5cx.titleInput) [1, 2] 1 k
      = ⟨[.createCall (overflowTitle (pyStrip envC5cx.titleInput) 1) (.raiseErr "err")],
          [], [], 0, k, some "err"⟩ := by
    intro k
    rw [runOverflow]
    rw [show envC5cx.createResult 1 = CreateOutcome.raiseErr "err" from rfl]
  rw [mainRun_eq_upload envC5cx (List.replicate 2500 ("1", "2")) ⟨some 7, none⟩ 7
    (by decide) rfl (by rw [List.length_replicate]; decide) hc0 hpid]
  rw [runUpload_eq envC5cx _ _ _ 7 rfl]
  dsimp only
  rw [uploadParts_eq, hlen]
  rw [show (2500 + 999) / 1000 - 1 = 2 by norm_num]
  rw [show List.range' 1 2 = [1, 2] from rfl]
  rw [hov]
  dsimp only
  refine ⟨?_, rfl⟩
  simp only [List.countP_append, List.countP_cons, List.countP_nil]
  rw [runBatches_events_isCreate]
  simp [Event.isCreate]

/-- C5 amended: when an overflow chunk's createPlaylist call *returns a
response without a usable playlist id*, that chunk is skipped entirely —
no addToPlaylist call is issued for it — already-created playlists and
their contents are unchanged, and the transfer continues with the
remaining chunks.  When a createPlaylist call *raises* (API error reply),
the exception is uncaught and the transfer aborts instead of continuing. -/
theorem claim_C5_amended (env : Env) (tracks : List (String × String)) (c0 : Nat)
    (ht : ¬ pyStrip env.titleInput = "")
    (henum : env.enumResult = .ok tracks)
    (hlen : 500 ≤ tracks.length)
    (hadd : ∀ j, env.addResult j = true)
    (hcr : ∀ c, c ≠ c0 → (env.createTruthy c).isSome = true)
    (hc0 : ∃ r, env.createResult c0 = .ok r ∧ extractPid r = none)
    (h1c0 : 1 ≤ c0) :
    (mainRun env).playlists.map (fun p => (p.title, p.added)) =
      (pyStrip env.titleInput,
          (tracks.reverse.map fun p => p.1 ++ "_" ++ p.2).take 1000) ::
        ((List.range' 1 ((tracks.length + 999) / 1000 - 1)).filter
            (fun p => p ≠ c0)).map
          (fun p => (overflowTitle (pyStrip env.titleInput) p,
            pySlice (tracks.reverse.map fun q => q.1 ++ "_" ++ q.2) (p * 1000) 1000)) ∧
    (mainRun env).processed =
      chunksOf 50 ((tracks.reverse.map fun p => p.1 ++ "_" ++ p.2).take 1000) ++
        (((List.range' 1 ((tracks.length + 999) / 1000 - 1)).filter
            (fun p => p ≠ c0)).map
          (fun p => chunksOf 50
            (pySlice (tracks.reverse.map fun q => q.1 ++ "_" ++ q.2) (p * 1000) 1000))).flatten := by
  obtain ⟨r0, hc0eq, hc0pid⟩ := hc0
  have hnr : ∀ c m, env.createResult c ≠ .raiseErr m := by
    intro c m h
    by_cases hc : c = c0
    · subst hc
      rw [h] at hc0eq
      exact CreateOutcome.noConfusion hc0eq
    · obtain ⟨r, p, hr, hp⟩ := createTruthy_elim (hcr c hc)
      rw [h] at hr
      exact CreateOutcome.noConfusion hr
  obtain ⟨resp, pid, hc0', hpid⟩ := createTruthy_elim (hcr 0 (by omega))
  rw [mainRun_eq_upload env tracks resp pid ht henum (by simp only [MIN_TRACKS]; omega) hc0' hpid]
  have hids : (tracks.reverse.map fun p => p.1 ++ "_" ++ p.2).length = tracks.length := by
    simp
  have hfilter : ∀ (l : List Nat),
      l.filter (fun p => (env.createTruthy p).isSome)
        = l.filter (fun p => p ≠ c0) := by
    intro l
    apply List.filter_congr
    intro p _
    by_cases hp : p = c0
    · subst hp
      simp [Env.createTruthy, hc0eq, hc0pid]
    · rw [hcr p hp]
      simp [hp]
  constructor
  · rw [runUpload_playlists env (pyStrip env.titleInput)
      (tracks.reverse.map fun p => p.1 ++ "_" ++ p.2) resp pid
      (by rw [hids]; exact hlen) hadd hnr, hids, hfilter]
  · rw [runUpload_processed env (pyStrip env.titleInput)
      (tracks.reverse.map fun p => p.1 ++ "_" ++ p.2) resp pid
      (by rw [hids]; exact hlen) (hadd 0) hnr, hids, hfilter]

/-- 2500 tracks; the create call for overflow part 1 returns a response
without a usable id, every other call succeeds. -/
def envC5w : Env :=
  ⟨"x", .ok (List.replicate 2500 ("1", "2")),
    fun c => if c = 1 then .ok ⟨none, none⟩ else .ok ⟨some 7, none⟩,
    fun _ => true⟩

theorem claim_C5_amended_witness :
    (∃ r, envC5w.createResult 1 = .ok r ∧ extractPid r = none) ∧
    (mainRun envC5w).playlists.map (fun p => (p.title, p.added)) =
      (pyStrip "x",
          ((List.replicate 2500 (("1" : String), ("2" : String))).reverse.map
            fun p => p.1 ++ "_" ++ p.2).take 1000) ::
        ((List.range' 1 (((List.replicate 2500 (("1" : String), ("2" : String))).length + 999)
              / 1000 - 1)).filter (fun p => p ≠ 1)).map
          (fun p => (overflowTitle (pyStrip "x") p,
            pySlice ((List.replicate 2500 (("1" : String), ("2" : String))).reverse.map
              fun q => q.1 ++ "_" ++ q.2) (p * 1000) 1000)) := by
  have h := claim_C5_amended envC5w (List.replicate 2500 ("1", "2")) 1
    (by decide) rfl (by rw [List.length_replicate]; omega) (fun _ => rfl)
    (by
      intro c hc
      have hcc : envC5w.createResult c = CreateOutcome.ok ⟨some 7, none⟩ := by
        rw [show envC5w.createResult c
            = (if c = 1 then CreateOutcome.ok ⟨none, none⟩
                else CreateOutcome.ok ⟨some 7, none⟩) from rfl, if_neg hc]
      simp only [Env.createTruthy, hcc]
      rfl)
    ⟨⟨none, none⟩, rfl, rfl⟩ le_rfl
  exact ⟨⟨⟨none, none⟩, rfl, rfl⟩, h.1⟩

/-- C8: `create_playlist` and `add_to_playlist` raise a generic runtime
error if and only if the JSON reply contains an `error` object — the
message carrying the structured `error_code` and `error_msg` — and
otherwise (the reply being a `response` object, per the API shape)
`create_playlist` returns the `response` object and `add_to_playlist`
returns normally. -/
theorem claim_C8 (data : VkJson)
    (hshape : data.error.isSome = true ∨ data.response.isSome = true) :
    (∀ e, data.error = some e →
      create_playlist data = .error (.runtimeError (errText e)) ∧
      add_to_playlist data = .error (.runtimeError (errText e))) ∧
    (data.error = none →
      (∃ r, data.response = some r ∧ create_playlist data = .ok r) ∧
      add_to_playlist data = .ok ()) := by
  constructor
  · intro e he
    unfold create_playlist add_to_playlist
    rw [he]
    exact ⟨rfl, rfl⟩
  · intro he
    cases hr : data.response with
    | none =>
      rw [he, hr] at hshape
      simp at hshape
    | some r =>
      unfold create_playlist add_to_playlist
      rw [he, hr]
      exact ⟨⟨r, rfl, rfl⟩, rfl⟩

theorem claim_C8_witness :
    ((VkJson.mk (some ⟨5, some "oops"⟩) none).error.isSome = true ∨
      (VkJson.mk (some ⟨5, some "oops"⟩) none).response.isSome = true) ∧
    ((∀ e, (VkJson.mk (some ⟨5, some "oops"⟩) none).error = some e →
      create_playlist (VkJson.mk (some ⟨5, some "oops"⟩) none)
        = .error (.runtimeError (errText e)) ∧
      add_to_playlist (VkJson.mk (some ⟨5, some "oops"⟩) none)
        = .error (.runtimeError (errText e))) ∧
    ((VkJson.mk (some ⟨5, some "oops"⟩) none).error = none →
      (∃ r, (VkJson.mk (some ⟨5, some "oops"⟩) none).response = some r ∧
        create_playlist (VkJson.mk (some ⟨5, some "oops"⟩) none) = .ok r) ∧
      add_to_playlist (VkJson.mk (some ⟨5, some "oops"⟩) none) = .ok ())) :=
  ⟨Or.inl rfl, claim_C8 (VkJson.mk (some ⟨5, some "oops"⟩) none) (Or.inl rfl)⟩

end VkTransfer
